import Mathlib

/-!
A shallow embedding of the `simple-db` crate (an embedded in-memory database
with typed schemas, a condition/sort/paginate query engine, an append-only
log plus snapshot persistence layer, and a buffered transaction protocol).

Modelling conventions, used consistently below:
* Rust `i64`/`u64`/`usize` become `Int`/`Nat` (no claim exercises overflow);
* `Uuid` values and their string round-trip become `Nat` identifiers;
* `chrono` timestamps become `Nat`, and the ambient clock `Utc::now()` is
  modelled as the constant `0` (no claim observes a timestamp);
* `f64` is modelled as a NaN flag plus a rational payload, which reproduces
  the IEEE partial order and partial equality used by the source;
* `serde_json::Value` becomes the inductive `JsonValue` (numbers as `Int`);
* `HashMap<String, V>` becomes an association list with insert-or-replace
  update; file contents (the log and the snapshot) are modelled as the
  parsed values they serialize to, and I/O is assumed to succeed.
-/

mutual
/-- Model of Rust `serde_json::Value` (`types.rs` uses it for `Value::Json`).
Arrays and objects use the mutually defined list types so that decidable
equality can be derived. -/
inductive JsonValue where
  | jnull : JsonValue
  | jbool : Bool → JsonValue
  | jnum : Int → JsonValue
  | jstr : String → JsonValue
  | jarr : JsonList → JsonValue
  | jobj : JsonObjList → JsonValue
deriving DecidableEq, Repr
/-- A list of JSON values (payload of `JsonValue.jarr`). -/
inductive JsonList where
  | nil : JsonList
  | cons : JsonValue → JsonList → JsonList
deriving DecidableEq, Repr
/-- A list of JSON object fields (payload of `JsonValue.jobj`). -/
inductive JsonObjList where
  | nil : JsonObjList
  | cons : String → JsonValue → JsonObjList → JsonObjList
deriving DecidableEq, Repr
end

/-- View a `JsonList` as an ordinary list. -/
def JsonList.toList : JsonList → List JsonValue
  | .nil => []
  | .cons j rest => j :: rest.toList

/-- Model of `serde_json::Value::as_array`. -/
def JsonValue.asArray : JsonValue → Option (List JsonValue)
  | .jarr l => some l.toList
  | _ => none

/-- Model of `f64`: a NaN flag and a rational payload.  `beqF` and `cmpF`
below reproduce Rust's `PartialEq`/`partial_cmp` on this model. -/
structure F64 where
  isNaN : Bool
  val : Rat
deriving DecidableEq, Repr

/-- Rust `PartialEq` on `f64`: NaN is equal to nothing. -/
def F64.beqF (a b : F64) : Bool :=
  !a.isNaN && !b.isNaN && a.val == b.val

/-- Rust `partial_cmp` on `f64`: `none` exactly when a NaN is involved. -/
def F64.cmpF (a b : F64) : Option Ordering :=
  if a.isNaN || b.isNaN then none else some (compare a.val b.val)

/-- `types.rs` `DataType`. -/
inductive DataType where
  | integer | text | boolean | float | date | time | datetime | json | binary
deriving DecidableEq, Repr

/-- `types.rs` `Value`.  `Date`/`Time`/`DateTime` payloads are modelled as
`Int` (the `chrono` types carry a total order isomorphic to an integer
encoding); `Binary` bytes as `List Nat`. -/
inductive Value where
  | integer : Int → Value
  | text : String → Value
  | boolean : Bool → Value
  | float : F64 → Value
  | date : Int → Value
  | time : Int → Value
  | datetime : Int → Value
  | json : JsonValue → Value
  | binary : List Nat → Value
  | null : Value
deriving DecidableEq, Repr

/-- `Value::is_null`. -/
def Value.isNull : Value → Bool
  | .null => true
  | _ => false

/-- Rust's derived `PartialEq` on `Value` (`new_val == existing_val` in
`Table::insert`): structural, except floats use IEEE partial equality. -/
def Value.beq : Value → Value → Bool
  | .integer a, .integer b => a == b
  | .text a, .text b => a == b
  | .boolean a, .boolean b => a == b
  | .float a, .float b => a.beqF b
  | .date a, .date b => a == b
  | .time a, .time b => a == b
  | .datetime a, .datetime b => a == b
  | .json a, .json b => a == b
  | .binary a, .binary b => a == b
  | .null, .null => true
  | _, _ => false

/-- `error.rs` `DatabaseError`.  Payload messages are abbreviated (the source
formats human-readable strings; no claim depends on their content). -/
inductive DatabaseError where
  | tableExists : String → DatabaseError
  | tableNotFound : String → DatabaseError
  | columnNotFound : String → DatabaseError
  | typeMismatch : String → DatabaseError
  | uniqueViolation : String → DatabaseError
  | notNullViolation : String → DatabaseError
  | parseError : String → DatabaseError
  | ioError : String → DatabaseError
  | jsonError : String → DatabaseError
  | other : String → DatabaseError
deriving DecidableEq, Repr

/-- `types.rs` `ColumnDefinition`. -/
structure ColumnDefinition where
  name : String
  data_type : DataType
  nullable : Bool
  unique : Bool
  default_value : Option Value
  primary_key : Bool
deriving DecidableEq, Repr

/-- `ColumnDefinition::new`: a primary key is non-nullable and unique by
default. -/
def ColumnDefinition.mkNew (name : String) (dt : DataType) (pk : Bool) : ColumnDefinition :=
  { name := name, data_type := dt, nullable := !pk, unique := pk,
    default_value := none, primary_key := pk }

/-- `types.rs` `Schema`. -/
structure Schema where
  columns : List ColumnDefinition
deriving DecidableEq, Repr

/-- `Schema::get_column` (first column with the given name). -/
def Schema.getColumn (s : Schema) (name : String) : Option ColumnDefinition :=
  s.columns.find? (fun col => col.name == name)

/-- `Schema::get_primary_key_columns`. -/
def Schema.getPrimaryKeyColumns (s : Schema) : List ColumnDefinition :=
  s.columns.filter (fun col => col.primary_key)

/-- `types.rs` `Row`: the `Uuid` is a `Nat`, the `HashMap` an association
list, timestamps are `Nat`. -/
structure Row where
  id : Nat
  data : List (String × Value)
  created_at : Nat
  updated_at : Nat
deriving DecidableEq, Repr

/-- `Row::new` with the fresh UUID supplied as a parameter (the source draws
it from `Uuid::new_v4`); `Utc::now()` is modelled as `0`. -/
def Row.mkNew (id : Nat) : Row :=
  { id := id, data := [], created_at := 0, updated_at := 0 }

/-- `Row::get`. -/
def Row.get (r : Row) (column : String) : Option Value :=
  (r.data.find? (fun p => p.1 == column)).map (fun p => p.2)

/-- `HashMap::insert`: replace the binding if the key is present, else add. -/
def assocSet : List (String × Value) → String → Value → List (String × Value)
  | [], k, v => [(k, v)]
  | (k', v') :: rest, k, v =>
    if k' == k then (k, v) :: rest else (k', v') :: assocSet rest k v

/-- `Row::set`. -/
def Row.set (r : Row) (column : String) (v : Value) : Row :=
  { r with data := assocSet r.data column v }

/-- `HashMap::contains_key` on the row data. -/
def Row.containsKey (r : Row) (column : String) : Bool :=
  r.data.any (fun p => p.1 == column)

/-- `types.rs` `Table`. -/
structure Table where
  name : String
  schema : Schema
  rows : List Row
  created_at : Nat
deriving DecidableEq, Repr

/-- `Table::new` (creation timestamp modelled as `0`). -/
def Table.mkNew (name : String) (schema : Schema) : Table :=
  { name := name, schema := schema, rows := [], created_at := 0 }

/-- The per-column required-field loop of `Schema::validate_row`: a
non-nullable, non-primary-key column whose row value is missing or `Null`
and which has no default raises `NotNullViolation`. -/
def notNullScan : List ColumnDefinition → Row → Except DatabaseError Unit
  | [], _ => .ok ()
  | col :: rest, row =>
    if !col.nullable && !col.primary_key then
      if (match row.get col.name with | none => true | some v => v.isNull) then
        if col.default_value.isNone then
          .error (.notNullViolation col.name)
        else notNullScan rest row
      else notNullScan rest row
    else notNullScan rest row

/-- `Schema::validate_row`: the required-field loop, then the primary-key
check (some primary-key column must carry a non-null value). -/
def Schema.validateRow (s : Schema) (row : Row) : Except DatabaseError Unit :=
  match notNullScan s.columns row with
  | .error e => .error e
  | .ok () =>
    let pkColumns := s.getPrimaryKeyColumns
    if pkColumns.isEmpty then .ok ()
    else if pkColumns.any (fun col =>
        match row.get col.name with
        | some v => !v.isNull
        | none => false) then .ok ()
    else .error (.notNullViolation "primary key")

/-- The default-backfill loop of `Table::insert`: every column not present
in the (progressively updated) row whose definition carries a default gets
that default. -/
def applyDefaults : List ColumnDefinition → Row → Row
  | [], row => row
  | col :: rest, row =>
    if row.containsKey col.name then applyDefaults rest row
    else match col.default_value with
      | some d => applyDefaults rest (row.set col.name d)
      | none => applyDefaults rest row

/-- `column_has_unique_constraint` (`types.rs`): some column is flagged
unique or primary-key. -/
def columnHasUniqueConstraint (s : Schema) : Bool :=
  s.columns.any (fun col => col.unique || col.primary_key)

/-- Inner column loop of the uniqueness scan in `Table::insert`: only
columns whose `unique` flag is set are checked. -/
def uniqueScanCols : List ColumnDefinition → Row → Row → Except DatabaseError Unit
  | [], _, _ => .ok ()
  | col :: rest, newRow, existingRow =>
    if col.unique then
      match newRow.get col.name, existingRow.get col.name with
      | some newVal, some existingVal =>
        if newVal.beq existingVal && !newVal.isNull then
          .error (.uniqueViolation col.name)
        else uniqueScanCols rest newRow existingRow
      | _, _ => uniqueScanCols rest newRow existingRow
    else uniqueScanCols rest newRow existingRow

/-- Outer row loop of the uniqueness scan in `Table::insert`. -/
def uniqueScanRows : List Row → List ColumnDefinition → Row → Except DatabaseError Unit
  | [], _, _ => .ok ()
  | existingRow :: rest, cols, newRow =>
    match uniqueScanCols cols newRow existingRow with
    | .error e => .error e
    | .ok () => uniqueScanRows rest cols newRow

/-- `Table::insert`: validate, backfill defaults, run the uniqueness scan
(guarded by `column_has_unique_constraint`), then push the row. -/
def Table.insert (t : Table) (row : Row) : Except DatabaseError Table :=
  match t.schema.validateRow row with
  | .error e => .error e
  | .ok () =>
    match (if columnHasUniqueConstraint t.schema
           then uniqueScanRows t.rows t.schema.columns (applyDefaults t.schema.columns row)
           else .ok ()) with
    | .error e => .error e
    | .ok () => .ok { t with rows := t.rows ++ [applyDefaults t.schema.columns row] }

/-- `Table::insert` seen as the Rust `&mut self` call: on error the table is
left unchanged (the source only mutates via the final `rows.push`). -/
def Table.insertMut (t : Table) (row : Row) : Table × Option DatabaseError :=
  match t.insert row with
  | .ok t2 => (t2, none)
  | .error e => (t, some e)

/-- `Table::update` (`updated_at` refresh modelled by the constant clock
`0`); updates are applied in the iteration order of the map, modelled by the
association list order. -/
def Table.update (t : Table) (id : Nat) (updates : List (String × Value)) :
    Except DatabaseError Table :=
  if t.rows.any (fun r => r.id == id) then
    .ok { t with rows := t.rows.map (fun r =>
      if r.id == id then
        { (updates.foldl (fun acc p => acc.set p.1 p.2) r) with updated_at := 0 }
      else r) }
  else .error (.other "row not found")

/-- `Table::delete` (retain all rows with a different id; error if nothing
was removed). -/
def Table.delete (t : Table) (id : Nat) : Except DatabaseError Table :=
  let remaining := t.rows.filter (fun r => !(r.id == id))
  if remaining.length == t.rows.length then .error (.other "row not found")
  else .ok { t with rows := remaining }

/-- `query.rs` `ComparisonOperator` (`In` is spelled `inOp`; `in` is a
reserved word). -/
inductive ComparisonOperator where
  | equal | notEqual | greaterThan | greaterThanOrEqual
  | lessThan | lessThanOrEqual | like | inOp | isNull | isNotNull
deriving DecidableEq, Repr

/-- `query.rs` `Condition`. -/
structure Condition where
  column : String
  operator : ComparisonOperator
  value : Value
deriving DecidableEq, Repr

/-- The `Ordering as i32` cast used by `Condition::compare_values`. -/
def ordToInt : Ordering → Int
  | .lt => -1
  | .eq => 0
  | .gt => 1

/-- `Condition::compare_values`: same-tagged typed values compare by their
order (floats via the IEEE partial order, an incomparable pair counting as
`0`); a missing left value is `-1` (NULL smallest); every remaining pairing
is a `TypeMismatch` error. -/
def compareValues (column : String) (a : Option Value) (b : Value) :
    Except DatabaseError Int :=
  match a, b with
  | some (.integer x), .integer y => .ok (ordToInt (compare x y))
  | some (.text x), .text y => .ok (ordToInt (compare x y))
  | some (.boolean x), .boolean y => .ok (ordToInt (compare x y))
  | some (.float x), .float y =>
    match x.cmpF y with
    | some o => .ok (ordToInt o)
    | none => .ok 0
  | some (.date x), .date y => .ok (ordToInt (compare x y))
  | some (.time x), .time y => .ok (ordToInt (compare x y))
  | some (.datetime x), .datetime y => .ok (ordToInt (compare x y))
  | none, _ => .ok (-1)
  | some _, _ => .error (.typeMismatch column)

/-- `Condition::evaluate_like`.  The source rewrites `%` to `.*` and `_` to
`.` and runs an anchored regex; this models the intended full-string
wildcard match (`%` a run of characters, `_` one character).  Patterns whose
other characters are regex metacharacters behave differently in the source;
no claim exercises them. -/
def likeMatch : List Char → List Char → Bool
  | [], [] => true
  | '%' :: ps, s =>
    likeMatch ps s ||
      (match s with
       | [] => false
       | _ :: s2 => likeMatch ('%' :: ps) s2)
  | '_' :: ps, _ :: s => likeMatch ps s
  | p :: ps, c :: s => p == c && likeMatch ps s
  | _, _ => false
termination_by ps s => (ps.length, s.length)

/-- The non-regex part of `Condition::evaluate_like`: only a text row value
against a text pattern can match. -/
def Condition.evaluateLike (c : Condition) (rowValue : Option Value) : Bool :=
  match rowValue, c.value with
  | some (.text s), .text pat => likeMatch pat.toList s.toList
  | _, _ => false

/-- `Condition::evaluate_in`: the right-hand value must be a `Json` array;
each element is converted with `Value::from` (which wraps it back into
`Value::Json`) and compared with `compare_values`, a comparison error being
flattened to `0` by `unwrap_or(0)`. -/
def Condition.evaluateIn (c : Condition) (rowValue : Option Value) : Bool :=
  match c.value with
  | .json j =>
    match j.asArray with
    | some arr =>
      match rowValue with
      | some rowVal =>
        arr.any (fun item =>
          ((match compareValues c.column (some rowVal) (.json item) with
            | .ok r => r
            | .error _ => 0) : Int) == 0)
      | none => false
    | none => false
  | _ => false

/-- `Condition::evaluate`. -/
def Condition.evaluate (c : Condition) (row : Row) : Except DatabaseError Bool :=
  let rowValue := row.get c.column
  match c.operator with
  | .equal => (compareValues c.column rowValue c.value).map (fun r => r == 0)
  | .notEqual => (compareValues c.column rowValue c.value).map (fun r => !(r == 0))
  | .greaterThan => (compareValues c.column rowValue c.value).map (fun r => decide (0 < r))
  | .greaterThanOrEqual => (compareValues c.column rowValue c.value).map (fun r => decide (0 ≤ r))
  | .lessThan => (compareValues c.column rowValue c.value).map (fun r => decide (r < 0))
  | .lessThanOrEqual => (compareValues c.column rowValue c.value).map (fun r => decide (r ≤ 0))
  | .like => .ok (c.evaluateLike rowValue)
  | .inOp => .ok (c.evaluateIn rowValue)
  | .isNull => .ok (match rowValue with | none => true | some v => v.isNull)
  | .isNotNull => .ok (match rowValue with | none => false | some v => !v.isNull)

/-- The `unwrap_or(false)` wrapper every query kind applies to
`Condition::evaluate`. -/
def conditionPasses (c : Condition) (row : Row) : Bool :=
  match c.evaluate row with
  | .ok b => b
  | .error _ => false

/-- `query.rs` `OrderBy`. -/
structure OrderBy where
  column : String
  ascending : Bool
deriving DecidableEq, Repr

/-- The per-key comparison of `QueryEngine::sort_rows` (before the
ascending/descending flip): same-tagged typed values by their order, a
missing value below any present value, and every other pairing `Equal`. -/
def sortKeyCompare (column : String) (a b : Row) : Ordering :=
  match a.get column, b.get column with
  | some (.integer x), some (.integer y) => compare x y
  | some (.text x), some (.text y) => compare x y
  | some (.boolean x), some (.boolean y) => compare x y
  | some (.float x), some (.float y) => (x.cmpF y).getD .eq
  | some (.date x), some (.date y) => compare x y
  | some (.time x), some (.time y) => compare x y
  | some (.datetime x), some (.datetime y) => compare x y
  | none, none => .eq
  | none, some _ => .lt
  | some _, none => .gt
  | _, _ => .eq

/-- The whole comparator of `QueryEngine::sort_rows`: first non-`Equal` key
wins, flipped when descending; all keys `Equal` gives `Equal`. -/
def rowCompare : List OrderBy → Row → Row → Ordering
  | [], _, _ => .eq
  | ob :: rest, a, b =>
    let c := sortKeyCompare ob.column a b
    if c == .eq then rowCompare rest a b
    else if ob.ascending then c else c.swap

/-- Stable insertion of a row into an already sorted list: the new row goes
after every earlier row it does not compare strictly below. -/
def insertRowSorted (cmp : Row → Row → Ordering) (r : Row) : List Row → List Row
  | [] => [r]
  | x :: xs =>
    if cmp r x == .lt then r :: x :: xs else x :: insertRowSorted cmp r xs

/-- `QueryEngine::sort_rows`.  `Vec::sort_by` is a stable sort; it is
modelled as a stable insertion sort, which produces the same list for every
total preorder comparator. -/
def sortRows (rows : List Row) (orderBys : List OrderBy) : List Row :=
  rows.foldl (fun acc r => insertRowSorted (rowCompare orderBys) r acc) []

/-- `query.rs` `QueryType`. -/
inductive QueryType where
  | select | insert | update | delete | count
deriving DecidableEq, Repr

/-- `query.rs` `Query` (the optional payload `data` as an association
list). -/
structure Query where
  query_type : QueryType
  table_name : String
  conditions : List Condition
  order_by : List OrderBy
  limit : Option Nat
  offset : Option Nat
  data : Option (List (String × Value))
deriving DecidableEq, Repr

/-- `Query::select`. -/
def Query.selectQ (tableName : String) : Query :=
  { query_type := .select, table_name := tableName, conditions := [],
    order_by := [], limit := none, offset := none, data := none }

/-- `QueryEngine::execute_select`, returning the rows of the
`QueryResult`: filter (when conditions exist), sort (when keys exist), then
slice `[offset .. min (offset+limit) len]`, an out-of-range offset giving
an empty result. -/
def executeSelect (t : Table) (q : Query) : List Row :=
  let filtered :=
    if q.conditions.isEmpty then t.rows
    else t.rows.filter (fun r => q.conditions.all (fun c => conditionPasses c r))
  let sorted :=
    if q.order_by.isEmpty then filtered
    else sortRows filtered q.order_by
  let start := q.offset.getD 0
  let stop :=
    match q.limit with
    | some l => start + l
    | none => sorted.length
  if start < sorted.length then
    (sorted.drop start).take (min stop sorted.length - start)
  else []

/-- `QueryEngine::execute_count`, returning the count of the
`QueryResult`. -/
def executeCount (t : Table) (q : Query) : Nat :=
  (t.rows.filter (fun r => q.conditions.all (fun c => conditionPasses c r))).length

/-- `storage.rs` `StorageOperation`.  The `Uuid`-as-string id of `Update`
and `Delete` is modelled as the `Nat` identifier itself (the string
round-trip always parses back). -/
inductive StorageOperation where
  | createOp : String → Schema → StorageOperation
  | insertOp : String → Row → StorageOperation
  | updateOp : String → Nat → List (String × Value) → StorageOperation
  | deleteOp : String → Nat → StorageOperation
  | dropOp : String → StorageOperation
deriving DecidableEq, Repr

/-- `storage.rs` `LogEntry`. -/
structure LogEntry where
  id : Nat
  timestamp : Nat
  operation : StorageOperation
deriving DecidableEq, Repr

/-- `storage.rs` `Snapshot` (timestamp modelled as `0`). -/
structure Snapshot where
  tables : List Table
  timestamp : Nat
  last_log_id : Nat
deriving DecidableEq, Repr

/-- `storage.rs` `StorageEngine`: the sequence-id counter plus the contents
of the two persistence files, modelled as the parsed values they hold (the
paths themselves and I/O failures are not modelled). -/
structure StorageEngine where
  current_log_id : Nat
  log_file : List LogEntry
  snapshot_file : Option Snapshot
deriving DecidableEq, Repr

/-- `StorageEngine::new`: the counter starts at `0`; whatever the two files
already contain on disk is untouched and is supplied as arguments. -/
def StorageEngine.mkNew (existingLog : List LogEntry) (existingSnapshot : Option Snapshot) :
    StorageEngine :=
  { current_log_id := 0, log_file := existingLog, snapshot_file := existingSnapshot }

/-- `StorageEngine::write_log`: increment the counter, then append one
entry carrying the new id (the entry timestamp, `Utc::now()`, is modelled
as `0`). -/
def StorageEngine.writeLog (se : StorageEngine) (op : StorageOperation) : StorageEngine :=
  let newId := se.current_log_id + 1
  { se with current_log_id := newId,
            log_file := se.log_file ++ [⟨newId, 0, op⟩] }

/-- `StorageEngine::create_snapshot`: overwrite the snapshot file with all
tables plus the current counter as watermark. -/
def StorageEngine.createSnapshot (se : StorageEngine) (tables : List Table) : StorageEngine :=
  { se with snapshot_file := some ⟨tables, 0, se.current_log_id⟩ }

/-- `StorageEngine::load_snapshot`. -/
def StorageEngine.loadSnapshot (se : StorageEngine) : Option Snapshot :=
  se.snapshot_file

/-- `StorageEngine::replay_logs`: every entry with id strictly greater than
`fromId`, in file order (the file-level skipping of corrupt lines is below
the level of this model, which holds parsed entries). -/
def StorageEngine.replayLogs (se : StorageEngine) (fromId : Nat) : List LogEntry :=
  se.log_file.filter (fun e => decide (fromId < e.id))

/-- `storage.rs` `MemoryStorage`: the name-indexed table map as an
association list (`HashMap` insertion order). -/
structure MemoryStorage where
  tables : List (String × Table)
deriving DecidableEq, Repr

/-- `MemoryStorage::new`. -/
def MemoryStorage.mkNew : MemoryStorage := ⟨[]⟩

/-- `HashMap::contains_key` on the table map. -/
def MemoryStorage.containsTable (s : MemoryStorage) (name : String) : Bool :=
  s.tables.any (fun p => p.1 == name)

/-- `MemoryStorage::get_table`. -/
def MemoryStorage.getTable (s : MemoryStorage) (name : String) : Option Table :=
  (s.tables.find? (fun p => p.1 == name)).map (fun p => p.2)

/-- `MemoryStorage::create_table`. -/
def MemoryStorage.createTable (s : MemoryStorage) (name : String) (schema : Schema) :
    Except DatabaseError MemoryStorage :=
  if s.containsTable name then .error (.tableExists name)
  else .ok ⟨s.tables ++ [(name, Table.mkNew name schema)]⟩

/-- `MemoryStorage::drop_table`. -/
def MemoryStorage.dropTable (s : MemoryStorage) (name : String) :
    Except DatabaseError MemoryStorage :=
  if s.containsTable name then
    .ok ⟨s.tables.filter (fun p => !(p.1 == name))⟩
  else .error (.tableNotFound name)

/-- Replace the table stored under a name (models `get_mut` mutation). -/
def MemoryStorage.putTable (s : MemoryStorage) (name : String) (t : Table) : MemoryStorage :=
  ⟨s.tables.map (fun p => if p.1 == name then (name, t) else p)⟩

/-- `MemoryStorage::insert_row`. -/
def MemoryStorage.insertRow (s : MemoryStorage) (name : String) (row : Row) :
    Except DatabaseError MemoryStorage :=
  match s.getTable name with
  | some t =>
    match t.insert row with
    | .ok t2 => .ok (s.putTable name t2)
    | .error e => .error e
  | none => .error (.tableNotFound name)

/-- `MemoryStorage::update_row`. -/
def MemoryStorage.updateRow (s : MemoryStorage) (name : String) (id : Nat)
    (updates : List (String × Value)) : Except DatabaseError MemoryStorage :=
  match s.getTable name with
  | some t =>
    match t.update id updates with
    | .ok t2 => .ok (s.putTable name t2)
    | .error e => .error e
  | none => .error (.tableNotFound name)

/-- `MemoryStorage::delete_row`. -/
def MemoryStorage.deleteRow (s : MemoryStorage) (name : String) (id : Nat) :
    Except DatabaseError MemoryStorage :=
  match s.getTable name with
  | some t =>
    match t.delete id with
    | .ok t2 => .ok (s.putTable name t2)
    | .error e => .error e
  | none => .error (.tableNotFound name)

/-- `MemoryStorage::get_all_data` (clone of every table, in map order). -/
def MemoryStorage.getAllData (s : MemoryStorage) : List Table :=
  s.tables.map (fun p => p.2)

/-- `engine.rs` `DatabaseEngine`: the in-memory store, the persistence
engine, and the auto-save flag (lock structure is not modelled; every
operation is a whole-state step). -/
structure DatabaseEngine where
  storage : MemoryStorage
  disk_storage : StorageEngine
  auto_save : Bool
deriving DecidableEq, Repr

/-- `DatabaseEngine::new`, over whatever the persistence files already
contain. -/
def DatabaseEngine.mkNew (existingLog : List LogEntry) (existingSnapshot : Option Snapshot) :
    DatabaseEngine :=
  { storage := MemoryStorage.mkNew,
    disk_storage := StorageEngine.mkNew existingLog existingSnapshot,
    auto_save := true }

/-- `DatabaseEngine::apply_log_operation`. -/
def applyLogOperation (s : MemoryStorage) (op : StorageOperation) :
    Except DatabaseError MemoryStorage :=
  match op with
  | .createOp table schema => s.createTable table schema
  | .insertOp table row => s.insertRow table row
  | .updateOp table id data => s.updateRow table id data
  | .deleteOp table id => s.deleteRow table id
  | .dropOp table => s.dropTable table

/-- The snapshot-table loop of `DatabaseEngine::load_from_disk`: each table
of the snapshot is recreated with `create_table(name, schema)` — that is,
with its schema only. -/
def createTablesFromSnapshot : MemoryStorage → List Table → Except DatabaseError MemoryStorage
  | s, [] => .ok s
  | s, t :: rest =>
    match s.createTable t.name t.schema with
    | .ok s2 => createTablesFromSnapshot s2 rest
    | .error e => .error e

/-- The log-replay loop shared by `load_from_disk` and `restore`. -/
def applyLogEntries : MemoryStorage → List LogEntry → Except DatabaseError MemoryStorage
  | s, [] => .ok s
  | s, e :: rest =>
    match applyLogOperation s e.operation with
    | .ok s2 => applyLogEntries s2 rest
    | .error err => .error err

/-- `DatabaseEngine::load_from_disk`, as a function of the on-disk state:
construct a fresh engine, load the snapshot and create its tables (schemas
only), then replay every log entry newer than the snapshot watermark (or
`0`). -/
def DatabaseEngine.loadFromDisk (existingLog : List LogEntry)
    (existingSnapshot : Option Snapshot) : Except DatabaseError DatabaseEngine :=
  let engine := DatabaseEngine.mkNew existingLog existingSnapshot
  let snapshot := engine.disk_storage.loadSnapshot
  match (match snapshot with
         | some snap => createTablesFromSnapshot engine.storage snap.tables
         | none => .ok engine.storage) with
  | .error e => .error e
  | .ok storage1 =>
    let lastLogId := (snapshot.map (fun s => s.last_log_id)).getD 0
    let logs := engine.disk_storage.replayLogs lastLogId
    match applyLogEntries storage1 logs with
    | .error e => .error e
    | .ok storage2 => .ok { engine with storage := storage2 }

/-- `DatabaseEngine::save_to_disk`: snapshot every current table. -/
def DatabaseEngine.saveToDisk (e : DatabaseEngine) : DatabaseEngine :=
  { e with disk_storage := e.disk_storage.createSnapshot e.storage.getAllData }

/-- `engine.rs` `Transaction`: the buffered operation list (the engine
reference is the explicit state threaded by `commit`). -/
structure Transaction where
  operations : List StorageOperation
deriving DecidableEq, Repr

/-- `Transaction::new`. -/
def Transaction.mkNew : Transaction := ⟨[]⟩

/-- `Transaction::create_table` (buffers, never touches the store). -/
def Transaction.createTable (tx : Transaction) (name : String) (schema : Schema) : Transaction :=
  ⟨tx.operations ++ [.createOp name schema]⟩

/-- `Transaction::insert` (buffers a fresh row built from the data map). -/
def Transaction.insertData (tx : Transaction) (tableName : String) (freshId : Nat)
    (data : List (String × Value)) : Transaction :=
  let row := data.foldl (fun r p => r.set p.1 p.2) (Row.mkNew freshId)
  ⟨tx.operations ++ [.insertOp tableName row]⟩

/-- `Transaction::update` (buffers). -/
def Transaction.updateData (tx : Transaction) (tableName : String) (id : Nat)
    (updates : List (String × Value)) : Transaction :=
  ⟨tx.operations ++ [.updateOp tableName id updates]⟩

/-- `Transaction::delete` (buffers). -/
def Transaction.deleteData (tx : Transaction) (tableName : String) (id : Nat) : Transaction :=
  ⟨tx.operations ++ [.deleteOp tableName id]⟩

/-- The operation loop of `Transaction::commit`: apply each buffered
operation to the store (stopping at the first failure, already-applied
operations kept) and, under auto-save, write each applied one to the log. -/
def commitLoop : DatabaseEngine → List StorageOperation → DatabaseEngine × Option DatabaseError
  | e, [] => (e, none)
  | e, op :: rest =>
    match applyLogOperation e.storage op with
    | .error err => (e, some err)
    | .ok storage2 =>
      let e2 := { e with storage := storage2 }
      let e3 := if e2.auto_save
                then { e2 with disk_storage := e2.disk_storage.writeLog op }
                else e2
      commitLoop e3 rest

/-- `Transaction::commit`: the operation loop, then (under auto-save) a
forced snapshot. -/
def Transaction.commit (tx : Transaction) (e : DatabaseEngine) :
    DatabaseEngine × Option DatabaseError :=
  match commitLoop e tx.operations with
  | (e2, some err) => (e2, some err)
  | (e2, none) => (if e2.auto_save then e2.saveToDisk else e2, none)

/-- `DatabaseEngine::transaction`: run the body against a fresh buffering
transaction; a body error aborts before `commit` is reached, a successful
body is followed by `commit`.  The body is any function of the transaction
handle — the handle's buffer is all it can affect, exactly as in the
source, where the body only sees the `Transaction`'s buffering methods. -/
def DatabaseEngine.transaction {T : Type} (e : DatabaseEngine)
    (body : Transaction → Transaction × Except DatabaseError T) :
    DatabaseEngine × Except DatabaseError T :=
  match body Transaction.mkNew with
  | (_, .error err) => (e, .error err)
  | (tx, .ok v) =>
    match tx.commit e with
    | (e2, none) => (e2, .ok v)
    | (e2, some err) => (e2, .error err)

/-- A select `Query` as produced by `Query::select` followed by the
`where_condition`/`order_by`/`limit`/`offset` builder calls. -/
def selectWith (tname : String) (conds : List Condition) (obs : List OrderBy)
    (lim : Option Nat) (off : Option Nat) : Query :=
  { query_type := .select, table_name := tname, conditions := conds,
    order_by := obs, limit := lim, offset := off, data := none }

/-- The filter-then-sort prefix of `execute_select` (everything before
pagination), factored out for the pagination lemmas. -/
def matchedRows (t : Table) (conds : List Condition) (obs : List OrderBy) : List Row :=
  let filtered :=
    if conds.isEmpty then t.rows
    else t.rows.filter (fun r => conds.all (fun c => conditionPasses c r))
  if obs.isEmpty then filtered else sortRows filtered obs

/-- Concrete single-column primary-key schema (`id INTEGER PK`), built with
`ColumnDefinition::new`. -/
def schemaPkId : Schema := ⟨[ColumnDefinition.mkNew "id" .integer true]⟩

/-- A concrete row holding `id = 1`. -/
def rowId1 : Row := (Row.mkNew 1).set "id" (.integer 1)

/-- A concrete one-row table named `t` over `schemaPkId`. -/
def tableT1 : Table := { name := "t", schema := schemaPkId, rows := [rowId1], created_at := 0 }

/-- A snapshot holding `tableT1` (one table, one row) with watermark 2. -/
def snapT1 : Snapshot := ⟨[tableT1], 0, 2⟩

/-- A pre-existing log carrying entries with ids 1 and 2. -/
def logTwoEntries : List LogEntry :=
  [⟨1, 0, .createOp "a" ⟨[]⟩⟩, ⟨2, 0, .createOp "b" ⟨[]⟩⟩]

/-- A row with no `x` binding at all. -/
def rowNoX : Row := Row.mkNew 0

/-- A row holding `x = 5`. -/
def rowX5 : Row := (Row.mkNew 0).set "x" (.integer 5)

/-- The condition `x IN [1]` (right-hand side the JSON array `[1]`). -/
def condInArr1 : Condition := ⟨"x", .inOp, .json (.jarr (.cons (.jnum 1) .nil))⟩

/-- A row holding `k = 1`. -/
def rowK1 : Row := (Row.mkNew 1).set "k" (.integer 1)

/-- A row holding an explicit `k = Null`. -/
def rowKNull : Row := (Row.mkNew 2).set "k" Value.null

/-- A primary-key column whose `unique` flag has been cleared with the
`ColumnDefinition::unique(false)` builder. -/
def colPkNotUnique : ColumnDefinition :=
  { name := "id", data_type := .integer, nullable := false, unique := false,
    default_value := none, primary_key := true }

/-- A one-row table over the primary-key-only (unique flag cleared)
schema, already holding `id = 1`. -/
def tablePkNotUnique : Table :=
  { name := "u", schema := ⟨[colPkNotUnique]⟩, rows := [rowId1], created_at := 0 }

/-- A second row also holding `id = 1` (fresh UUID 2). -/
def rowId1b : Row := (Row.mkNew 2).set "id" (.integer 1)

/-- A non-nullable, non-primary-key column `c` without a default. -/
def colCNoDefault : ColumnDefinition :=
  { name := "c", data_type := .integer, nullable := false, unique := false,
    default_value := none, primary_key := false }

/-- A non-nullable, non-primary-key column `c` defaulting to `7`. -/
def colCDefault7 : ColumnDefinition :=
  { name := "c", data_type := .integer, nullable := false, unique := false,
    default_value := some (.integer 7), primary_key := false }

/-- An empty table whose schema requires `c` without providing a default. -/
def tableNoDefault : Table :=
  { name := "n", schema := ⟨[ColumnDefinition.mkNew "id" .integer true, colCNoDefault]⟩,
    rows := [], created_at := 0 }

/-- An empty table whose schema defaults `c` to `7`. -/
def tableDefault7 : Table :=
  { name := "d", schema := ⟨[ColumnDefinition.mkNew "id" .integer true, colCDefault7]⟩,
    rows := [], created_at := 0 }

/-- A row supplying `id = 1` and an explicit `c = Null`. -/
def rowIdCNull : Row := ((Row.mkNew 1).set "id" (.integer 1)).set "c" Value.null

/-- The table produced by inserting `rowIdCNull` into `tableDefault7`. -/
def tableDefault7After : Table :=
  { tableDefault7 with
    rows := [applyDefaults tableDefault7.schema.columns rowIdCNull] }

/-- A transaction body that buffers one operation and then fails. -/
def bodyFail : Transaction → Transaction × Except DatabaseError Unit :=
  fun tx => (tx.createTable "w" ⟨[]⟩, .error (.other "abort"))

/-- A three-row table for exercising pagination. -/
def tableW3 : Table :=
  { name := "w", schema := ⟨[]⟩,
    rows := [(Row.mkNew 1).set "a" (.integer 1),
             (Row.mkNew 2).set "a" (.integer 2),
             (Row.mkNew 3).set "a" (.integer 3)],
    created_at := 0 }

/-- C1: the claim says recovery from (snapshot, empty log) reconstructs each
table's row multiset.  Evaluating `load_from_disk` on a snapshot holding one
table with one row yields that table with zero rows: the snapshot loop calls
`create_table(name, schema)` only, discarding the snapshot's rows. -/
theorem C1_snapshot_rows_dropped :
    (match DatabaseEngine.loadFromDisk [] (some snapT1) with
     | .ok e => (e.storage.getTable "t").map (fun tb => tb.rows.length)
     | .error _ => none) = some 0
    ∧ snapT1.tables.map (fun tb => tb.rows.length) = [1] :=
  ⟨rfl, rfl⟩

/-- C2: the claim says `write_log` always assigns an id strictly greater
than every id ever assigned, including after `load_from_disk` over an
existing log.  Over a log already carrying ids 1 and 2, the engine built by
`load_from_disk` leaves `current_log_id` at 0, so the next `write_log`
assigns id 1 again — the log file ends as ids `[1, 2, 1]`. -/
theorem C2_log_id_reused_after_recovery :
    (match DatabaseEngine.loadFromDisk logTwoEntries none with
     | .ok e => some ((e.disk_storage.writeLog (.dropOp "a")).log_file.map (fun en => en.id))
     | .error _ => none) = some [1, 2, 1]
    ∧ logTwoEntries.map (fun en => en.id) = [1, 2] :=
  ⟨rfl, rfl⟩

/-- C4: the claim says `x IN [1]` matches a row with `x = 5` only if some
array element compares equal to 5.  The evaluation returns true although no
element is equal to the row value (element-wise, `Value::from` re-wraps the
element as `Value::Json` and the resulting `compare_values` type error is
flattened to 0 — "equal" — by `unwrap_or(0)`). -/
theorem C4_in_matches_without_equal_element :
    condInArr1.evaluate rowX5 = .ok true
    ∧ (∀ j ∈ (JsonList.cons (.jnum 1) .nil).toList, Value.beq (.integer 5) (.json j) = false)
    ∧ compareValues "x" (some (.integer 5)) (.integer 1) = .ok 1 := by
  refine ⟨rfl, by decide, rfl⟩

/-- C3 counterexample: the claim says a condition on a missing column is
false for every operator except IS NULL; but `x ≠ 5` on a row without `x`
evaluates to true (the missing value compares as `-1`). -/
theorem C3_counterexample_missing_not_equal :
    Condition.evaluate ⟨"x", .notEqual, .integer 5⟩ rowNoX = .ok true
    ∧ Condition.evaluate ⟨"x", .notEqual, .integer 5⟩ rowNoX ≠ .ok false :=
  ⟨rfl, fun h => Bool.noConfusion (Except.ok.inj h)⟩

/-- C5 counterexample: the claim says a row with `Null` on the sort key
orders strictly before rows with typed values; sorting `[k=1, k=Null]`
ascending by `k` leaves the `Null` row second (the comparator has no `Null`
arm, so the pair falls into the catch-all `Equal` and the stable sort keeps
the original order). -/
theorem C5_counterexample_null_not_first :
    sortRows [rowK1, rowKNull] [⟨"k", true⟩] = [rowK1, rowKNull]
    ∧ [rowK1, rowKNull] ≠ [rowKNull, rowK1] :=
  ⟨rfl, by decide⟩

/-- C6 counterexample: the claim covers every column flagged unique or
primary-key; for a primary-key column whose `unique` flag was cleared via
the `unique(false)` builder, a duplicate non-null insert succeeds and the
row count grows (the uniqueness scan tests only `column.unique`). -/
theorem C6_counterexample_pk_unique_cleared :
    (tablePkNotUnique.insertMut rowId1b).2 = none
    ∧ (tablePkNotUnique.insertMut rowId1b).1.rows.length = 2
    ∧ rowId1.get "id" = some (.integer 1)
    ∧ rowId1b.get "id" = some (.integer 1)
    ∧ colPkNotUnique.primary_key = true :=
  ⟨rfl, rfl, rfl, rfl, rfl⟩

/-- A missing left value compares as `-1` (the `(None, _) => Ok(-1)` arm of
`compare_values`), whatever the right-hand value. -/
theorem compareValues_none (col : String) (b : Value) :
    compareValues col none b = .ok (-1) := by
  cases b <;> rfl

/-- LIKE never matches a missing row value. -/
theorem evaluateLike_none (c : Condition) : c.evaluateLike none = false := by
  unfold Condition.evaluateLike
  cases c.value <;> rfl

/-- IN never matches a missing row value. -/
theorem evaluateIn_none (c : Condition) : c.evaluateIn none = false := by
  unfold Condition.evaluateIn
  cases c.value <;> try rfl
  rename_i j
  cases hj : j.asArray <;> simp [hj]

/-- C3 (amended): a condition whose column is missing from the row
evaluates to false for `=`, `>`, `≥`, LIKE, IN and IS NOT NULL, and to true
for IS NULL — but also to true for `≠`, `<` and `≤`, because the missing
value compares as `-1`, strictly below the right-hand value. -/
theorem C3_missing_column_semantics (c : Condition) (row : Row)
    (h : row.get c.column = none) :
    c.evaluate row = .ok (match c.operator with
      | .notEqual | .lessThan | .lessThanOrEqual | .isNull => true
      | _ => false) := by
  unfold Condition.evaluate
  cases c.operator <;>
    simp [h, compareValues_none, Except.map, evaluateLike_none, evaluateIn_none]

/-- C3 witness: the missing-column table of results, instantiated at `x < 5`
over a row with no `x`. -/
theorem C3_missing_column_semantics_witness :
    rowNoX.get "x" = none
    ∧ Condition.evaluate ⟨"x", .lessThan, .integer 5⟩ rowNoX = .ok true :=
  ⟨rfl, C3_missing_column_semantics ⟨"x", .lessThan, .integer 5⟩ rowNoX rfl⟩

/-- C5 (amended): under an ascending sort key, a row lacking the key
compares strictly below every row carrying a value on it, but a row whose
value is an explicit `Null` compares `Equal` to every row carrying a value
(the comparator has no `Null` arm), so the stable sort leaves it in its
original relative position rather than first. -/
theorem C5_missing_sorts_first_null_ties (key : String) (a b : Row) (v : Value)
    (hb : b.get key = some v) :
    (a.get key = none → rowCompare [⟨key, true⟩] a b = .lt)
    ∧ (a.get key = some .null → rowCompare [⟨key, true⟩] a b = .eq) := by
  constructor
  · intro ha
    simp only [rowCompare, sortKeyCompare, ha, hb]
    cases v <;> rfl
  · intro ha
    simp only [rowCompare, sortKeyCompare, ha, hb]
    cases v <;> rfl

/-- C5 witness: against the row `k = 1`, a row with no `k` compares `lt`
and a row with an explicit `k = Null` compares `eq`. -/
theorem C5_missing_sorts_first_null_ties_witness :
    rowK1.get "k" = some (.integer 1)
    ∧ rowCompare [⟨"k", true⟩] rowNoX rowK1 = .lt
    ∧ rowCompare [⟨"k", true⟩] rowKNull rowK1 = .eq :=
  ⟨rfl,
   (C5_missing_sorts_first_null_ties "k" rowNoX rowK1 (.integer 1) rfl).1 rfl,
   (C5_missing_sorts_first_null_ties "k" rowKNull rowK1 (.integer 1) rfl).2 rfl⟩

/-- After `assocSet l k v`, looking up `k` finds `(k, v)`. -/
theorem assocSet_find_self (l : List (String × Value)) (k : String) (v : Value) :
    (assocSet l k v).find? (fun p => p.1 == k) = some (k, v) := by
  induction l with
  | nil => simp [assocSet]
  | cons hd tl ih =>
    obtain ⟨k', v'⟩ := hd
    by_cases h : k' = k
    · subst h
      simp [assocSet]
    · have hb : (k' == k) = false := by simp [h]
      simp [assocSet, hb, List.find?, ih]

/-- `assocSet` on key `k` leaves lookups of a different key unchanged. -/
theorem assocSet_find_ne (l : List (String × Value)) (k n : String) (v : Value)
    (h : ¬ k = n) :
    (assocSet l k v).find? (fun p => p.1 == n) = l.find? (fun p => p.1 == n) := by
  induction l with
  | nil => simp [assocSet, h]
  | cons hd tl ih =>
    obtain ⟨kk, vv⟩ := hd
    by_cases hk : kk = k
    · subst hk
      have hn : (kk == n) = false := by simp [h]
      simp [assocSet, List.find?, hn, h]
    · have hb : (kk == k) = false := by simp [hk]
      by_cases hkn : kk = n
      · subst hkn
        simp [assocSet, hb, List.find?]
      · have hn : (kk == n) = false := by simp [hkn]
        simp [assocSet, hb, List.find?, hn, ih]

/-- `Row::set` followed by `Row::get` of the same column. -/
theorem Row.get_set_self (r : Row) (k : String) (v : Value) :
    (r.set k v).get k = some v := by
  simp [Row.get, Row.set, assocSet_find_self]

/-- `Row::set` leaves other columns unchanged. -/
theorem Row.get_set_ne (r : Row) (k n : String) (v : Value) (h : ¬ k = n) :
    (r.set k v).get n = r.get n := by
  simp [Row.get, Row.set, assocSet_find_ne r.data k n v h]

/-- A column with a value is reported present by `contains_key`. -/
theorem Row.containsKey_of_get_some (r : Row) (n : String) (v : Value)
    (h : r.get n = some v) : r.containsKey n = true := by
  unfold Row.get at h
  unfold Row.containsKey
  obtain ⟨q, hq⟩ := Option.map_eq_some'.mp h
  have h1 := List.mem_of_find?_eq_some hq.1
  have h2 := List.find?_some hq.1
  exact List.any_eq_true.mpr ⟨q, h1, h2⟩

/-- A column without a value is reported absent by `contains_key`. -/
theorem Row.containsKey_of_get_none (r : Row) (n : String)
    (h : r.get n = none) : r.containsKey n = false := by
  unfold Row.get at h
  unfold Row.containsKey
  rw [Option.map_eq_none'] at h
  rw [List.find?_eq_none] at h
  simp only [List.any_eq_false]
  intro p hp
  exact h p hp

/-- The default-backfill loop never changes a column that already has a
value. -/
theorem applyDefaults_get_some (cols : List ColumnDefinition) (r : Row)
    (n : String) (v : Value) (h : r.get n = some v) :
    (applyDefaults cols r).get n = some v := by
  induction cols generalizing r with
  | nil => simpa [applyDefaults] using h
  | cons col rest ih =>
    unfold applyDefaults
    by_cases hc : r.containsKey col.name = true
    · simp only [hc, if_true]
      exact ih r h
    · simp only [eq_false_of_ne_true hc, if_false]
      cases hd : col.default_value with
      | none => exact ih r h
      | some d =>
        have hne : ¬ col.name = n := by
          intro he
          rw [he] at hc
          exact hc (Row.containsKey_of_get_some r n v h)
        exact ih (r.set col.name d) (by rw [Row.get_set_ne r col.name n d hne]; exact h)

/-- The default-backfill loop fills the first column definition carrying a
given missing name with its default. -/
theorem applyDefaults_get_default (cols : List ColumnDefinition) (r : Row)
    (n : String) (cd : ColumnDefinition) (d : Value)
    (hfind : cols.find? (fun c => c.name == n) = some cd)
    (hd : cd.default_value = some d) (hmiss : r.get n = none) :
    (applyDefaults cols r).get n = some d := by
  induction cols generalizing r with
  | nil => simp [List.find?] at hfind
  | cons col rest ih =>
    by_cases he : col.name = n
    · have hb : (col.name == n) = true := by simp [he]
      simp only [List.find?, hb] at hfind
      obtain rfl : col = cd := by injection hfind
      have hck : r.containsKey col.name = false := by
        rw [he]; exact Row.containsKey_of_get_none r n hmiss
      unfold applyDefaults
      rw [if_neg (by rw [hck]; exact Bool.false_ne_true)]
      rw [hd]
      apply applyDefaults_get_some
      rw [he]
      exact Row.get_set_self r n d
    · have hb : (col.name == n) = false := by simp [he]
      simp only [List.find?, hb] at hfind
      unfold applyDefaults
      by_cases hc : r.containsKey col.name = true
      · simp only [hc, if_true]
        exact ih r hfind hmiss
      · simp only [eq_false_of_ne_true hc, if_false]
        cases hdv : col.default_value with
        | none => exact ih r hfind hmiss
        | some d' =>
          exact ih (r.set col.name d')
            hfind (by rw [Row.get_set_ne r col.name n d' he]; exact hmiss)

/-- Every outcome of the required-field loop is `ok` or a
`NotNullViolation`. -/
theorem notNullScan_shape (cols : List ColumnDefinition) (row : Row) :
    notNullScan cols row = .ok ()
    ∨ ∃ msg, notNullScan cols row = .error (.notNullViolation msg) := by
  induction cols with
  | nil => exact .inl rfl
  | cons col rest ih =>
    unfold notNullScan
    split
    · split
      · split
        · exact .inr ⟨col.name, rfl⟩
        · exact ih
      · exact ih
    · exact ih

/-- The required-field loop rejects a row when some non-nullable,
non-primary-key column has a missing-or-null value and no default. -/
theorem notNullScan_not_ok (cols : List ColumnDefinition) (row : Row)
    (cd : ColumnDefinition) (hmem : cd ∈ cols) (hn : cd.nullable = false)
    (hp : cd.primary_key = false)
    (hval : (match row.get cd.name with | none => true | some v => v.isNull) = true)
    (hdef : cd.default_value = none) :
    ¬ notNullScan cols row = .ok () := by
  induction cols with
  | nil => cases hmem
  | cons col rest ih =>
    unfold notNullScan
    rcases List.mem_cons.mp hmem with rfl | hmem2
    · rw [if_pos (by rw [hn, hp]; rfl)]
      rw [if_pos hval]
      rw [if_pos (by rw [hdef]; rfl)]
      exact fun h => Except.noConfusion h
    · split
      · split
        · split
          · exact fun h => Except.noConfusion h
          · exact ih hmem2
        · exact ih hmem2
      · exact ih hmem2

/-- A failed required-field loop makes `validate_row` fail with a
`NotNullViolation`. -/
theorem validateRow_notNull_error (s : Schema) (row : Row)
    (h : ¬ notNullScan s.columns row = .ok ()) :
    ∃ msg, s.validateRow row = .error (.notNullViolation msg) := by
  rcases notNullScan_shape s.columns row with hok | ⟨msg, herr⟩
  · exact absurd hok h
  · exact ⟨msg, by unfold Schema.validateRow; rw [herr]⟩

/-- A validation error is returned unchanged by `Table::insert`, leaving
the table as it was. -/
theorem insert_error_of_validate (t : Table) (row : Row) (e : DatabaseError)
    (h : t.schema.validateRow row = .error e) :
    t.insertMut row = (t, some e) := by
  unfold Table.insertMut Table.insert
  rw [h]

/-- Every outcome of the column uniqueness loop is `ok` or a
`UniqueViolation`. -/
theorem uniqueScanCols_shape (cols : List ColumnDefinition) (nr ex : Row) :
    uniqueScanCols cols nr ex = .ok ()
    ∨ ∃ msg, uniqueScanCols cols nr ex = .error (.uniqueViolation msg) := by
  induction cols with
  | nil => exact .inl rfl
  | cons col rest ih =>
    unfold uniqueScanCols
    split
    · split
      · split
        · exact .inr ⟨col.name, rfl⟩
        · exact ih
      · exact ih
    · exact ih

/-- The column uniqueness loop rejects when some unique-flagged column
holds equal non-null values in the new and an existing row. -/
theorem uniqueScanCols_not_ok (cols : List ColumnDefinition) (nr ex : Row)
    (cd : ColumnDefinition) (v w : Value) (hmem : cd ∈ cols) (hu : cd.unique = true)
    (hnv : nr.get cd.name = some v) (hev : ex.get cd.name = some w)
    (hbeq : v.beq w = true) (hnn : v.isNull = false) :
    ¬ uniqueScanCols cols nr ex = .ok () := by
  induction cols with
  | nil => cases hmem
  | cons col rest ih =>
    unfold uniqueScanCols
    rcases List.mem_cons.mp hmem with rfl | hmem2
    · rw [if_pos hu, hnv, hev]
      show ¬ (if (v.beq w && !v.isNull) = true
              then Except.error (DatabaseError.uniqueViolation cd.name)
              else uniqueScanCols rest nr ex) = Except.ok ()
      rw [hbeq, hnn]
      rw [if_pos (show (true && !false) = true from rfl)]
      exact fun h => Except.noConfusion h
    · split
      · split
        · split
          · exact fun h => Except.noConfusion h
          · exact ih hmem2
        · exact ih hmem2
      · exact ih hmem2

/-- Every outcome of the row uniqueness loop is `ok` or a
`UniqueViolation`. -/
theorem uniqueScanRows_shape (rows : List Row) (cols : List ColumnDefinition) (nr : Row) :
    uniqueScanRows rows cols nr = .ok ()
    ∨ ∃ msg, uniqueScanRows rows cols nr = .error (.uniqueViolation msg) := by
  induction rows with
  | nil => exact .inl rfl
  | cons ex rest ih =>
    unfold uniqueScanRows
    rcases uniqueScanCols_shape cols nr ex with hok | ⟨msg, herr⟩
    · rw [hok]; exact ih
    · rw [herr]; exact .inr ⟨msg, rfl⟩

/-- The row uniqueness loop rejects when some existing row triggers the
column loop. -/
theorem uniqueScanRows_not_ok (rows : List Row) (cols : List ColumnDefinition)
    (nr ex : Row) (hex : ex ∈ rows)
    (h : ¬ uniqueScanCols cols nr ex = .ok ()) :
    ¬ uniqueScanRows rows cols nr = .ok () := by
  induction rows with
  | nil => cases hex
  | cons hd rest ih =>
    unfold uniqueScanRows
    rcases List.mem_cons.mp hex with rfl | hmem2
    · rcases uniqueScanCols_shape cols nr ex with hok | ⟨msg, herr⟩
      · exact absurd hok h
      · rw [herr]; exact fun hh => Except.noConfusion hh
    · rcases uniqueScanCols_shape cols nr hd with hok | ⟨msg, herr⟩
      · rw [hok]; exact ih hmem2
      · rw [herr]; exact fun hh => Except.noConfusion hh

/-- A successful insert appends exactly the backfilled row. -/
theorem insert_ok_rows (t : Table) (row : Row) (t2 : Table)
    (h : t.insert row = .ok t2) :
    t2 = { t with rows := t.rows ++ [applyDefaults t.schema.columns row] } := by
  unfold Table.insert at h
  cases hval : t.schema.validateRow row with
  | error e => rw [hval] at h; cases h
  | ok u =>
    cases u
    rw [hval] at h
    cases hscan : (if columnHasUniqueConstraint t.schema
        then uniqueScanRows t.rows t.schema.columns (applyDefaults t.schema.columns row)
        else .ok ()) with
    | error e => rw [hscan] at h; cases h
    | ok u2 =>
      cases u2
      rw [hscan] at h
      exact (Except.ok.inj h).symm

/-- Insert succeeds whenever validation and the uniqueness scan pass. -/
theorem insert_ok_of (t : Table) (row : Row)
    (hval : t.schema.validateRow row = .ok ())
    (huniq : uniqueScanRows t.rows t.schema.columns (applyDefaults t.schema.columns row) = .ok ()) :
    t.insert row = .ok { t with rows := t.rows ++ [applyDefaults t.schema.columns row] } := by
  unfold Table.insert
  rw [hval]
  by_cases hg : columnHasUniqueConstraint t.schema = true
  · rw [if_pos hg, huniq]
  · rw [if_neg hg]

/-- C6 (amended): for every column whose `unique` flag is set (which
includes primary-key columns built by `ColumnDefinition::new`, where the
flag is set implicitly), inserting a row that passes validation and whose
non-null value in that column equals an existing row's value fails with
`UniqueViolation`, and the table is unchanged.  A primary-key column whose
`unique` flag has been cleared is not scanned (see the counterexample). -/
theorem C6_unique_flag_duplicate_rejected
    (t : Table) (row exRow : Row) (cd : ColumnDefinition) (v w : Value)
    (hmem : cd ∈ t.schema.columns) (hu : cd.unique = true)
    (hv : row.get cd.name = some v) (hnn : v.isNull = false)
    (hex : exRow ∈ t.rows) (hw : exRow.get cd.name = some w) (hbeq : v.beq w = true)
    (hval : t.schema.validateRow row = .ok ()) :
    (t.insertMut row).1 = t
    ∧ ∃ msg, (t.insertMut row).2 = some (.uniqueViolation msg) := by
  have hv2 : (applyDefaults t.schema.columns row).get cd.name = some v :=
    applyDefaults_get_some _ _ _ _ hv
  have hguard : columnHasUniqueConstraint t.schema = true := by
    unfold columnHasUniqueConstraint
    exact List.any_eq_true.mpr ⟨cd, hmem, by rw [hu]; rfl⟩
  have hcols : ¬ uniqueScanCols t.schema.columns
      (applyDefaults t.schema.columns row) exRow = .ok () :=
    uniqueScanCols_not_ok _ _ _ cd v w hmem hu hv2 hw hbeq hnn
  have hscan : ¬ uniqueScanRows t.rows t.schema.columns
      (applyDefaults t.schema.columns row) = .ok () :=
    uniqueScanRows_not_ok _ _ _ exRow hex hcols
  rcases uniqueScanRows_shape t.rows t.schema.columns
      (applyDefaults t.schema.columns row) with hok | ⟨msg, herr⟩
  · exact absurd hok hscan
  · have hins : t.insert row = .error (.uniqueViolation msg) := by
      unfold Table.insert
      rw [hval, if_pos hguard, herr]
    unfold Table.insertMut
    rw [hins]
    exact ⟨rfl, msg, rfl⟩

/-- C6 witness: inserting a second `id = 1` into the one-row table over the
`id INTEGER PK` schema (whose `unique` flag is set by the constructor)
fails with `UniqueViolation` and leaves the table unchanged. -/
theorem C6_unique_flag_duplicate_rejected_witness :
    (tableT1.insertMut rowId1b).1 = tableT1
    ∧ ∃ msg, (tableT1.insertMut rowId1b).2 = some (.uniqueViolation msg) :=
  C6_unique_flag_duplicate_rejected tableT1 rowId1b rowId1
    (ColumnDefinition.mkNew "id" .integer true) (.integer 1) (.integer 1)
    (by decide) rfl rfl rfl (by decide) rfl rfl rfl

/-- C8: (a) inserting a row that omits a non-nullable, non-primary-key
column with no default fails with `NotNullViolation`, leaving the table
unchanged; (b) inserting a row that omits such a column which does have a
default succeeds (validation and the uniqueness scan passing) and the
stored row carries the default. -/
theorem C8_not_null_and_default_backfill :
    (∀ (t : Table) (row : Row) (cd : ColumnDefinition),
      cd ∈ t.schema.columns → cd.nullable = false → cd.primary_key = false →
      cd.default_value = none → row.get cd.name = none →
      (t.insertMut row).1 = t
      ∧ ∃ msg, (t.insertMut row).2 = some (.notNullViolation msg))
    ∧ (∀ (t : Table) (row : Row) (cname : String) (cd : ColumnDefinition) (d : Value),
      t.schema.getColumn cname = some cd → cd.nullable = false →
      cd.primary_key = false → cd.default_value = some d → row.get cname = none →
      t.schema.validateRow row = .ok () →
      uniqueScanRows t.rows t.schema.columns (applyDefaults t.schema.columns row) = .ok () →
      t.insert row = .ok { t with rows := t.rows ++ [applyDefaults t.schema.columns row] }
      ∧ (applyDefaults t.schema.columns row).get cname = some d) := by
  constructor
  · intro t row cd hmem hn hp hdef hmiss
    have hnot : ¬ notNullScan t.schema.columns row = .ok () :=
      notNullScan_not_ok _ _ cd hmem hn hp (by rw [hmiss]) hdef
    obtain ⟨msg, herr⟩ := validateRow_notNull_error t.schema row hnot
    rw [insert_error_of_validate t row _ herr]
    exact ⟨rfl, msg, rfl⟩
  · intro t row cname cd d hfind hn hp hd hmiss hval huniq
    exact ⟨insert_ok_of t row hval huniq,
           applyDefaults_get_default t.schema.columns row cname cd d hfind hd hmiss⟩

/-- C8 witness: over a schema requiring `c` with no default, inserting a
row that supplies only `id` fails with `NotNullViolation`; over the schema
defaulting `c` to `7`, the same row is stored with `c = 7`. -/
theorem C8_not_null_and_default_backfill_witness :
    ((tableNoDefault.insertMut rowId1).1 = tableNoDefault
     ∧ ∃ msg, (tableNoDefault.insertMut rowId1).2 = some (.notNullViolation msg))
    ∧ (tableDefault7.insert rowId1
        = .ok { tableDefault7 with
                rows := tableDefault7.rows ++ [applyDefaults tableDefault7.schema.columns rowId1] }
       ∧ (applyDefaults tableDefault7.schema.columns rowId1).get "c" = some (.integer 7)) :=
  ⟨C8_not_null_and_default_backfill.1 tableNoDefault rowId1 colCNoDefault
     (by decide) rfl rfl rfl rfl,
   C8_not_null_and_default_backfill.2 tableDefault7 rowId1 "c" colCDefault7 (.integer 7)
     rfl rfl rfl rfl rfl rfl rfl⟩

/-- C10: a row that supplies an explicit `Null` for a non-nullable,
non-primary-key column carrying a default is accepted by `Table::insert`
(the witness shows acceptance concretely) and the stored row keeps `Null`
in that column — the default backfill only covers columns absent from the
row. -/
theorem C10_explicit_null_kept
    (t : Table) (row : Row) (cname : String) (cd : ColumnDefinition) (d : Value)
    (t2 : Table) (hfind : t.schema.getColumn cname = some cd)
    (hn : cd.nullable = false) (hp : cd.primary_key = false)
    (hd : cd.default_value = some d) (hnull : row.get cname = some .null)
    (hok : t.insert row = .ok t2) :
    t2.rows = t.rows ++ [applyDefaults t.schema.columns row]
    ∧ (applyDefaults t.schema.columns row).get cname = some .null :=
  ⟨by rw [insert_ok_rows t row t2 hok], applyDefaults_get_some _ _ _ _ hnull⟩

/-- C10 witness: inserting `{id = 1, c = Null}` into the table whose
non-nullable column `c` defaults to `7` is accepted, and the stored row
holds `c = Null`, not the default. -/
theorem C10_explicit_null_kept_witness :
    tableDefault7.insert rowIdCNull = .ok tableDefault7After
    ∧ (tableDefault7After.rows
        = tableDefault7.rows ++ [applyDefaults tableDefault7.schema.columns rowIdCNull]
       ∧ (applyDefaults tableDefault7.schema.columns rowIdCNull).get "c" = some .null) :=
  ⟨rfl, C10_explicit_null_kept tableDefault7 rowIdCNull "c" colCDefault7 (.integer 7)
     tableDefault7After rfl rfl rfl rfl rfl rfl⟩

/-- C7: when the transaction body returns an error, `commit` is never
reached (`transaction` propagates the error with `?` before calling it), no
buffered operation is applied to the store or written to the log, and the
whole engine state is exactly what it was before the call. -/
theorem C7_body_error_aborts {T : Type} (e : DatabaseEngine)
    (body : Transaction → Transaction × Except DatabaseError T) (err : DatabaseError)
    (h : (body Transaction.mkNew).2 = .error err) :
    e.transaction body = (e, .error err) := by
  unfold DatabaseEngine.transaction
  rcases hb : body Transaction.mkNew with ⟨tx, r⟩
  rw [hb] at h
  cases r with
  | error e2 =>
    have he2 : e2 = err := by injection h
    subst he2
    rfl
  | ok v => exact Except.noConfusion h

/-- C7 witness: a body that buffers a `Create` operation and then fails
leaves a fresh engine exactly as it was, returning the body's error. -/
theorem C7_body_error_aborts_witness :
    (DatabaseEngine.mkNew [] none).transaction bodyFail
      = (DatabaseEngine.mkNew [] none, .error (.other "abort")) :=
  C7_body_error_aborts (DatabaseEngine.mkNew [] none) bodyFail (.other "abort") rfl

/-- Taking `min k (length l)` elements is the same as taking `k`. -/
theorem take_min_length (l : List Row) (k : Nat) :
    l.take (min k l.length) = l.take k := by
  rcases le_total k l.length with h | h
  · rw [min_eq_left h]
  · rw [min_eq_right h, List.take_length, List.take_of_length_le h]

/-- A select with `limit L, offset s` returns the slice
`take L (drop s)` of the filtered-and-sorted rows. -/
theorem executeSelect_page (t : Table) (nm : String) (conds : List Condition)
    (obs : List OrderBy) (L s : Nat) :
    executeSelect t (selectWith nm conds obs (some L) (some s))
      = ((matchedRows t conds obs).drop s).take L := by
  have base : executeSelect t (selectWith nm conds obs (some L) (some s))
      = (if s < (matchedRows t conds obs).length
         then ((matchedRows t conds obs).drop s).take
                (min (s + L) (matchedRows t conds obs).length - s)
         else []) := rfl
  rw [base]
  by_cases hs : s < (matchedRows t conds obs).length
  · rw [if_pos hs]
    have h1 : min (s + L) (matchedRows t conds obs).length - s
        = min L ((matchedRows t conds obs).length - s) := by omega
    rw [h1, ← List.length_drop]
    exact take_min_length _ _
  · rw [if_neg hs, List.drop_eq_nil_of_le (le_of_not_lt hs)]
    exact List.take_nil.symm

/-- A select without limit or offset returns all filtered-and-sorted
rows. -/
theorem executeSelect_all (t : Table) (nm : String) (conds : List Condition)
    (obs : List OrderBy) :
    executeSelect t (selectWith nm conds obs none none) = matchedRows t conds obs := by
  have base : executeSelect t (selectWith nm conds obs none none)
      = (if 0 < (matchedRows t conds obs).length
         then ((matchedRows t conds obs).drop 0).take
                (min (matchedRows t conds obs).length (matchedRows t conds obs).length - 0)
         else []) := rfl
  rw [base]
  by_cases h0 : 0 < (matchedRows t conds obs).length
  · rw [if_pos h0]
    simp
  · rw [if_neg h0]
    have hnil : matchedRows t conds obs = [] :=
      List.eq_nil_of_length_eq_zero (by omega)
    rw [hnil]

/-- A select whose offset is at or beyond the matching row count returns an
empty result (for any limit). -/
theorem executeSelect_offset_ge (t : Table) (nm : String) (conds : List Condition)
    (obs : List OrderBy) (lim : Option Nat) (off : Nat)
    (h : (matchedRows t conds obs).length ≤ off) :
    executeSelect t (selectWith nm conds obs lim (some off)) = [] := by
  cases lim with
  | some l =>
    have base : executeSelect t (selectWith nm conds obs (some l) (some off))
        = (if off < (matchedRows t conds obs).length
           then ((matchedRows t conds obs).drop off).take
                  (min (off + l) (matchedRows t conds obs).length - off)
           else []) := rfl
    rw [base, if_neg (not_lt.mpr h)]
  | none =>
    have base : executeSelect t (selectWith nm conds obs none (some off))
        = (if off < (matchedRows t conds obs).length
           then ((matchedRows t conds obs).drop off).take
                  (min (matchedRows t conds obs).length (matchedRows t conds obs).length - off)
           else []) := rfl
    rw [base, if_neg (not_lt.mpr h)]

/-- Concatenating the first `n` pages of size `L` yields the first `n * L`
rows. -/
theorem flatten_pages (m : List Row) (L n : Nat) :
    ((List.range n).map (fun i => (m.drop (i * L)).take L)).flatten = m.take (n * L) := by
  induction n with
  | zero => simp
  | succ k ih =>
    rw [List.range_succ, List.map_append, List.flatten_append, ih]
    simp only [List.map_cons, List.map_nil, List.flatten_cons, List.flatten_nil,
      List.append_nil]
    rw [show (k + 1) * L = k * L + L by ring, List.take_add]

/-- C9: for a fixed condition list, order-by list and page size `L`,
concatenating the select pages at offsets `0, L, 2L, …` (enough pages to
cover every matching row) equals the unpaginated select — every matching
row exactly once, in the same relative order — and any select whose offset
is at or beyond the matching row count returns an empty result. -/
theorem C9_pagination_roundtrip (t : Table) (conds : List Condition)
    (obs : List OrderBy) (L n : Nat) (hL : 0 < L)
    (hn : (executeSelect t (selectWith t.name conds obs none none)).length ≤ n * L) :
    ((List.range n).map (fun i =>
        executeSelect t (selectWith t.name conds obs (some L) (some (i * L))))).flatten
      = executeSelect t (selectWith t.name conds obs none none)
    ∧ ∀ (off : Nat) (lim : Option Nat),
        (executeSelect t (selectWith t.name conds obs none none)).length ≤ off →
        executeSelect t (selectWith t.name conds obs lim (some off)) = [] := by
  rw [executeSelect_all] at hn
  constructor
  · have hpages : ∀ i : Nat,
        executeSelect t (selectWith t.name conds obs (some L) (some (i * L)))
          = ((matchedRows t conds obs).drop (i * L)).take L :=
      fun i => executeSelect_page t t.name conds obs L (i * L)
    calc ((List.range n).map (fun i =>
            executeSelect t (selectWith t.name conds obs (some L) (some (i * L))))).flatten
        = ((List.range n).map (fun i =>
            ((matchedRows t conds obs).drop (i * L)).take L)).flatten := by
          rw [List.map_congr_left (fun i _ => hpages i)]
      _ = (matchedRows t conds obs).take (n * L) := flatten_pages _ L n
      _ = matchedRows t conds obs := List.take_of_length_le hn
      _ = executeSelect t (selectWith t.name conds obs none none) :=
          (executeSelect_all t t.name conds obs).symm
  · intro off lim hoff
    rw [executeSelect_all] at hoff
    exact executeSelect_offset_ge t t.name conds obs lim off hoff

/-- C9 witness: pages of size 2 over a three-row table concatenate to the
full select, and offset 5 (past the 3 matching rows) yields an empty
result. -/
theorem C9_pagination_roundtrip_witness :
    (0 < 2 ∧ (executeSelect tableW3 (selectWith tableW3.name [] [] none none)).length ≤ 2 * 2)
    ∧ ((List.range 2).map (fun i =>
        executeSelect tableW3 (selectWith tableW3.name [] [] (some 2) (some (i * 2))))).flatten
      = executeSelect tableW3 (selectWith tableW3.name [] [] none none)
    ∧ executeSelect tableW3 (selectWith tableW3.name [] [] none (some 5)) = [] :=
  ⟨⟨by decide, by decide⟩,
   (C9_pagination_roundtrip tableW3 [] [] 2 2 (by decide) (by decide)).1,
   (C9_pagination_roundtrip tableW3 [] [] 2 2 (by decide) (by decide)).2 5 none (by decide)⟩
